import Mathlib

/-!
Verification of the data profiling and filtering core of the CSV Insights
Dashboard (src/app.py): type inference (`attempt_type_conversion`), column
classification (`get_column_types`), the categorical/numeric filter stages of
`main` (app.py lines 252-309), and the deterministic scatter sampling step
(app.py lines 446-451).

Machine floats of the source are modelled as exact rationals; pandas
operations (`isin`, boolean-mask selection, `to_numeric`, `to_datetime`,
`sample`) are modelled by their documented semantics on explicit lists.  The
missing-value profiler's `sort_values` step (app.py line 68) is not embedded:
with the default `kind='quicksort'` its order among tied counts is not
specified by pandas, so no executable model of it is faithful.
-/

namespace CSVDash

/-- A non-null cell value: a text string, a (rational-modelled) number, or a
parsed datetime encoded as an integer ordinal. -/
inductive Val where
  | str : String → Val
  | num : ℚ → Val
  | dt : Int → Val
deriving DecidableEq, Repr

/-- The pandas dtypes the source distinguishes: `select_dtypes(include=['number'])`
versus `object` columns, plus the datetime dtype produced by conversion. -/
inductive DType where
  | numeric : DType
  | object : DType
  | datetime : DType
deriving DecidableEq, Repr

/-- A named, typed column: an ordered list of cells, each a value or Null (NaN). -/
structure Column where
  name : String
  dtype : DType
  values : List (Option Val)
deriving DecidableEq, Repr

/-- A dataframe: an ordered list of columns (pandas column order). -/
structure Table where
  cols : List Column
deriving DecidableEq, Repr

/-- Row count `len(df)`: the length of the first column (0 for no columns). -/
def rowCount (t : Table) : Nat :=
  match t.cols with
  | [] => 0
  | c :: _ => c.values.length

/-- A well-formed dataframe: every column has exactly `rowCount` cells. -/
def wellFormed (t : Table) : Prop :=
  ∀ c ∈ t.cols, c.values.length = rowCount t

instance : DecidablePred wellFormed := fun t => by
  unfold wellFormed; infer_instance

/-- Column lookup `df[col]`: values of the first column with the given name. -/
def colVals (t : Table) (c : String) : Option (List (Option Val)) :=
  (t.cols.find? (fun col => col.name = c)).map Column.values

/-- Null count of a column, `series.isnull().sum()`. -/
def nullCount (vs : List (Option Val)) : Nat :=
  (vs.filter Option.isNone).length

/-- Non-null count of a column, `series.notna().sum()`. -/
def nonNullCount (vs : List (Option Val)) : Nat :=
  (vs.filter Option.isSome).length

/-- Exact rational value of the float quotient `a / b` (0 when `b = 0`, which
matches the source outcome: numpy returns NaN there and every
`NaN > threshold` comparison is False, as is `0 > threshold`).  Written with
`Rat.divInt` so that concrete instances reduce inside the kernel. -/
def ratio (a b : Nat) : ℚ := Rat.divInt a b

/-- Digit-string check for the numeral parser. -/
def digitsOnly (cs : List Char) : Bool := cs.all Char.isDigit

/-- Value of a digit string, most significant digit first. -/
def digitsToNat (cs : List Char) : Nat :=
  cs.foldl (fun n c => 10 * n + (c.toNat - 48)) 0

/-- Numeral parsing as used by `pd.to_numeric(·, errors='coerce')` on a single
string: an optional sign, then a plain decimal numeral with an optional
fractional part; anything else fails (coerces to NaN). -/
def parseNum (s : String) : Option ℚ :=
  let cs := s.data
  let signAndRest : Bool × List Char :=
    match cs with
    | '-' :: r => (true, r)
    | '+' :: r => (false, r)
    | r => (false, r)
  let neg := signAndRest.1
  let body := signAndRest.2
  let intPart := body.takeWhile (fun ch => ch ≠ '.')
  let rest := body.dropWhile (fun ch => ch ≠ '.')
  let fracPart := rest.drop 1
  if digitsOnly intPart && digitsOnly fracPart &&
      (!intPart.isEmpty || !fracPart.isEmpty) &&
      !fracPart.any (fun ch => ch = '.') && (rest.isEmpty || rest.take 1 = ['.']) then
    let mag : ℚ :=
      Rat.divInt (digitsToNat intPart * 10 ^ fracPart.length + digitsToNat fracPart)
        (10 ^ fracPart.length)
    some (if neg then -mag else mag)
  else
    none

/-- Character-list split at every `-`, keeping empty groups. -/
def splitOnDash : List Char → List (List Char)
  | [] => [[]]
  | '-' :: rest => [] :: splitOnDash rest
  | c :: rest =>
    match splitOnDash rest with
    | [] => [[c]]
    | g :: gs => (c :: g) :: gs

/-- Datetime parsing as used by `pd.to_datetime(·, errors='coerce')` on a single
string, modelled for ISO `YYYY-MM-DD` literals; anything else fails (NaT). -/
def parseDate (s : String) : Option Int :=
  match splitOnDash s.data with
  | [y, m, d] =>
    if digitsOnly y && digitsOnly m && digitsOnly d &&
        y.length = 4 && m.length = 2 && d.length = 2 then
      let mv := digitsToNat m
      let dv := digitsToNat d
      if 1 ≤ mv && mv ≤ 12 && 1 ≤ dv && dv ≤ 31 then
        some ((digitsToNat y : Int) * 10000 + mv * 100 + dv)
      else none
    else none
  | _ => none

/-- Cellwise `pd.to_numeric(errors='coerce')`: numbers pass through, strings are
parsed, everything else (and Null) coerces to Null. -/
def toNumericCell : Option Val → Option Val
  | some (Val.num q) => some (Val.num q)
  | some (Val.str s) => (parseNum s).map Val.num
  | _ => none

/-- Cellwise `pd.to_datetime(errors='coerce')`: datetimes pass through, strings
are parsed, everything else (and Null) coerces to Null. -/
def toDatetimeCell : Option Val → Option Val
  | some (Val.dt n) => some (Val.dt n)
  | some (Val.str s) => (parseDate s).map Val.dt
  | _ => none

/-- Per-column body of `attempt_type_conversion` (app.py lines 80-103): on an
object column, skip if the null ratio exceeds 0.5, else accept numeric
conversion when the success ratio exceeds 0.9, else try datetime under the same
threshold, else leave the column unchanged.  The thresholds 0.5 and 0.9 are the
exact rationals `ratio 1 2` and `ratio 9 10`. -/
def convertColumn (rc : Nat) (c : Column) : Column × List String :=
  if c.dtype ≠ DType.object then (c, [])
  else if ratio (nullCount c.values) rc > ratio 1 2 then (c, [])
  else
    let numericVals := c.values.map toNumericCell
    if ratio (nonNullCount numericVals) (nonNullCount c.values) > ratio 9 10 then
      ({ c with dtype := DType.numeric, values := numericVals },
       ["'" ++ c.name ++ "' → numeric"])
    else
      let datetimeVals := c.values.map toDatetimeCell
      if ratio (nonNullCount datetimeVals) (nonNullCount c.values) > ratio 9 10 then
        ({ c with dtype := DType.datetime, values := datetimeVals },
         ["'" ++ c.name ++ "' → datetime"])
      else (c, [])

/-- The whole of `attempt_type_conversion` (app.py lines 71-105): each object
column is decided independently against the full row count, in column order,
and the change strings are concatenated in that order. -/
def attempt_type_conversion (t : Table) : Table × List String :=
  let converted := t.cols.map (convertColumn (rowCount t))
  (⟨converted.map Prod.fst⟩, (converted.map Prod.snd).flatten)

/-- The table `main` uses downstream of the load step (app.py lines 172-192):
the parsed dataframe is stored in session state and used as is;
`attempt_type_conversion` is never invoked on it by any code path, and
`st.session_state.conversion_changes` (read at line 209) is never assigned. -/
def pipelineTable (t : Table) : Table := t

/-- The 3-row, 2-column scenario table of the spec (section 8): column `a` is
`["1", "2", Null]`, column `b` is `["x", "y", "z"]`, both loaded as object. -/
def scenarioTable : Table :=
  ⟨[⟨"a", DType.object, [some (Val.str "1"), some (Val.str "2"), none]⟩,
    ⟨"b", DType.object, [some (Val.str "x"), some (Val.str "y"), some (Val.str "z")]⟩]⟩

/-- Column classification `get_column_types` (app.py lines 43-50): numeric
dtypes versus everything else, both in column order. -/
def get_column_types (t : Table) : List String × List String :=
  ((t.cols.filter (fun c => c.dtype = DType.numeric)).map Column.name,
   (t.cols.filter (fun c => c.dtype ≠ DType.numeric)).map Column.name)

/-- Boolean-mask row selection: keep the entries of `vs` at the positions
where the mask is true (`df[mask]` for one column). -/
def applyMask {α : Type} : List Bool → List α → List α
  | true :: ms, v :: vs => v :: applyMask ms vs
  | false :: ms, _ :: vs => applyMask ms vs
  | _, _ => []

/-- The boolean mask a cellwise predicate induces on a column. -/
def maskOf (p : Option Val → Bool) (vs : List (Option Val)) : List Bool :=
  vs.map p

/-- Row selection of a whole dataframe by one mask: every column is filtered
by the same mask, so rows stay aligned and in source order. -/
def selectRows (t : Table) (m : List Bool) : Table :=
  ⟨t.cols.map (fun c => { c with values := applyMask m c.values })⟩

/-- Row filtering `df_filtered[pred(df_filtered[col])]`: the mask is computed
on the named column and applied to the whole dataframe.  A missing column
name cannot arise in the source (filter columns are chosen from the
dataframe's own columns) and leaves the dataframe unchanged here. -/
def filterRows (t : Table) (col : String) (p : Option Val → Bool) : Table :=
  match colVals t col with
  | none => t
  | some vs => selectRows t (maskOf p vs)

/-- Distinct non-null values of a column, `df[col].dropna().unique()` (as a
duplicate-free list; the source only uses its length and its members). -/
def distinctNonNull (vs : List (Option Val)) : List Val :=
  (vs.filterMap id).dedup

/-- Cell predicate of the categorical filter, `isin(selected_values)`: Null
never matches because the selectable values are drawn from the non-null
distinct values. -/
def catPred (allowed : List Val) : Option Val → Bool
  | some v => v ∈ allowed
  | none => false

/-- Cell predicate of the numeric range filter (app.py lines 306-309):
non-null, numeric and within the inclusive bounds; NaN compares False on
both sides in the source. -/
def numPred (lo hi : ℚ) : Option Val → Bool
  | some (Val.num q) => lo ≤ q && q ≤ hi
  | _ => false

/-- Numeric cells of a column, for `min()` / `max()` (which skip NaN). -/
def numCells (vs : List (Option Val)) : List ℚ :=
  vs.filterMap (fun c =>
    match c with
    | some (Val.num q) => some q
    | _ => none)

/-- Column minimum `float(df[col].min())`, None when no numeric value exists. -/
def colMin (t : Table) (col : String) : Option ℚ :=
  (colVals t col).bind (fun vs => (numCells vs).min?)

/-- Column maximum `float(df[col].max())`, None when no numeric value exists. -/
def colMax (t : Table) (col : String) : Option ℚ :=
  (colVals t col).bind (fun vs => (numCells vs).max?)

/-- Informational note of the categorical branch when a column has more than
50 unique values (app.py line 279). -/
def tooManyNote (col : String) (n : Nat) : String :=
  "'" ++ col ++ "' has " ++ toString n ++
    " unique values. Try the numeric range filter or search in the data preview instead."

/-- Informational note of the numeric branch on a constant column (app.py
line 297); the source renders the float bound, e.g. `10.0`, where this model
renders the rational. -/
def constNote (col : String) (m : ℚ) : String :=
  "All values in '" ++ col ++ "' are " ++ toString m

/-- The categorical filter stage of `main` (app.py lines 265-279): with a
selected column, compute its distinct non-null values; with at most 50 of
them show the multiselect and, only when the selection is nonempty, keep the
rows whose value is in the selection; with more than 50 emit the
informational note and filter nothing. -/
def catStage (t : Table) (sel : Option (String × List Val)) : Table × Option String :=
  match sel with
  | none => (t, none)
  | some (col, selected) =>
    match colVals t col with
    | none => (t, none)
    | some vs =>
      let uniq := distinctNonNull vs
      if uniq.length ≤ 50 then
        if selected.isEmpty then (t, none)
        else (filterRows t col (catPred selected), none)
      else (t, some (tooManyNote col uniq.length))

/-- The numeric filter stage of `main` (app.py lines 291-309): bounds come
from the original dataframe `df` (lines 292-293) while rows are filtered from
the current `df_filtered`; on a constant column (`col_min == col_max`) no
filter is constructed and the informational note is emitted instead.  A
column without numeric values gives NaN bounds in the source (`NaN == NaN`
is False, so the slider would receive NaN limits and the UI errors out); no
claim concerns that branch and it is modelled as a no-op. -/
def numStage (orig cur : Table) (sel : Option (String × ℚ × ℚ)) : Table × Option String :=
  match sel with
  | none => (cur, none)
  | some (col, lo, hi) =>
    match colMin orig col, colMax orig col with
    | some m, some M =>
      if m = M then (cur, some (constNote col m))
      else (filterRows cur col (numPred lo hi), none)
    | _, _ => (cur, none)

/-- The filtering section of `main` (app.py lines 252-309): start from the
full dataframe, apply the categorical stage, then the numeric stage. -/
def filterPipeline (t : Table) (catSel : Option (String × List Val))
    (numSel : Option (String × ℚ × ℚ)) : Table :=
  (numStage t (catStage t catSel).1 numSel).1

/-- One step of a linear congruential generator, the concrete deterministic
randomness source standing in for numpy's seeded generator. -/
def lcg (s : Nat) : Nat := (1103515245 * s + 12345) % 2147483648

/-- Draw `k` elements without replacement: each step removes the drawn
element before the next draw.  This models the documented contract of
`DataFrame.sample(n, random_state)` — a deterministic, duplicate-free
selection governed by the seed — with an explicit generator in place of
numpy's. -/
def sampleK {α : Type} : Nat → Nat → List α → List α
  | 0, _, _ => []
  | _ + 1, _, [] => []
  | k + 1, seed, v :: vs =>
    let l := v :: vs
    let i := seed % l.length
    l.getD i v :: sampleK k (lcg seed) (l.eraseIdx i)

/-- Row indices drawn by `df_plot.sample(n=5000, random_state=42)` on a
dataframe of `n` rows. -/
def sampleIdx (n : Nat) : List Nat := sampleK 5000 42 (List.range n)

/-- The scatter sampling step (app.py lines 446-451): over 5000 rows, draw
exactly 5000 rows without replacement with the fixed seed 42; otherwise use
the dataframe unchanged. -/
def sampleTable (t : Table) : Table :=
  if 5000 < rowCount t then
    let idx := sampleIdx (rowCount t)
    ⟨t.cols.map (fun c => { c with values := idx.map (fun i => c.values.getD i none) })⟩
  else t

/-- Test vector: a 1-row table whose single text column holds a value. -/
def tblC1 : Table := ⟨[⟨"a", DType.object, [some (Val.str "x")]⟩]⟩

/-- Test vector: a 2-row table whose single text column holds a value and a
Null. -/
def tblC3 : Table := ⟨[⟨"a", DType.object, [some (Val.str "x"), none]⟩]⟩

/-- Test vector: a 1-row table whose single text column holds only a Null. -/
def tblC6 : Table := ⟨[⟨"a", DType.object, [none]⟩]⟩

/-- Test vector: a numeric column with a Null between the values 1 and 5. -/
def tblC6num : Table :=
  ⟨[⟨"n", DType.numeric, [some (Val.num 1), none, some (Val.num 5)]⟩]⟩

/-- Test vector: the spec's constant numeric column `[10, 10, 10]`. -/
def tblC7 : Table :=
  ⟨[⟨"n", DType.numeric, [some (Val.num 10), some (Val.num 10), some (Val.num 10)]⟩]⟩

/-- Values of a categorical column with 51 distinct non-null entries. -/
def tblC10vals : List (Option Val) :=
  (List.range 51).map (fun i => some (Val.str (toString i)))

/-- Test vector: a table whose categorical column has 51 distinct values. -/
def tblC10 : Table := ⟨[⟨"c", DType.object, tblC10vals⟩]⟩

/-- Test vector: the spec's all-numeric text column `["1","2","3","4","5"]`. -/
def tblC5digits : Table :=
  ⟨[⟨"col", DType.object,
     [some (Val.str "1"), some (Val.str "2"), some (Val.str "3"),
      some (Val.str "4"), some (Val.str "5")]⟩]⟩

/-- Test vector: the spec's 0.8-ratio text column `["1","2","x","4","5"]`. -/
def tblC5mixed : Table :=
  ⟨[⟨"col", DType.object,
     [some (Val.str "1"), some (Val.str "2"), some (Val.str "x"),
      some (Val.str "4"), some (Val.str "5")]⟩]⟩

/-- Relation between a filtered column and its source column: same name, same
dtype, and the values a subsequence of the source values. -/
def colSub (c' c0 : Column) : Prop :=
  c'.name = c0.name ∧ c'.dtype = c0.dtype ∧ c'.values.Sublist c0.values

theorem applyMask_sublist {α : Type} (m : List Bool) (vs : List α) :
    (applyMask m vs).Sublist vs := by
  induction vs generalizing m with
  | nil => cases m <;> simp [applyMask]
  | cons v vs ih =>
    cases m with
    | nil => simp [applyMask]
    | cons b ms =>
      cases b with
      | true => simpa [applyMask] using (ih ms).cons₂ v
      | false => simpa [applyMask] using (ih ms).cons v

theorem applyMask_maskOf (p : Option Val → Bool) (vs : List (Option Val)) :
    applyMask (maskOf p vs) vs = vs.filter p := by
  induction vs with
  | nil => rfl
  | cons v vs ih =>
    by_cases h : p v <;> simp [maskOf, applyMask, List.filter_cons, h] <;>
      simpa [maskOf] using ih

theorem applyMask_of_all_true {α : Type} {m : List Bool} {vs : List α}
    (hl : m.length = vs.length) (hm : ∀ b ∈ m, b = true) : applyMask m vs = vs := by
  induction vs generalizing m with
  | nil => cases m <;> simp_all [applyMask]
  | cons v vs ih =>
    cases m with
    | nil => simp at hl
    | cons b ms =>
      have hb : b = true := hm b (by simp)
      subst hb
      have : applyMask ms vs = vs :=
        ih (by simpa using hl) (fun x hx => hm x (by simp [hx]))
      simp [applyMask, this]

theorem maskOf_congr {p q : Option Val → Bool} {vs : List (Option Val)}
    (h : ∀ v ∈ vs, p v = q v) : maskOf p vs = maskOf q vs :=
  List.map_congr_left h

theorem colVals_selectRows (t : Table) (m : List Bool) (c : String) :
    colVals (selectRows t m) c = (colVals t c).map (applyMask m) := by
  cases t with
  | mk cols =>
    induction cols with
    | nil => rfl
    | cons c0 cs ih =>
      by_cases h : c0.name = c
      · simp [colVals, selectRows, List.find?_cons_of_pos, h]
      · simpa [colVals, selectRows, List.find?_cons_of_neg, h] using ih

theorem filterRows_of_colVals {t : Table} {col : String} {vs : List (Option Val)}
    (p : Option Val → Bool) (h : colVals t col = some vs) :
    filterRows t col p = selectRows t (maskOf p vs) := by
  unfold filterRows
  rw [h]

theorem colVals_filterRows_self {t : Table} {col : String} {vs : List (Option Val)}
    (p : Option Val → Bool) (h : colVals t col = some vs) :
    colVals (filterRows t col p) col = some (vs.filter p) := by
  rw [filterRows_of_colVals p h, colVals_selectRows, h, Option.map_some',
    applyMask_maskOf]

theorem exists_col_of_colVals {t : Table} {c : String} {vs : List (Option Val)}
    (h : colVals t c = some vs) : ∃ c0 ∈ t.cols, c0.values = vs := by
  unfold colVals at h
  rcases Option.map_eq_some'.mp h with ⟨c0, hfind, hvals⟩
  exact ⟨c0, List.mem_of_find?_eq_some hfind, hvals⟩

theorem selectRows_of_all_true {t : Table} {m : List Bool}
    (hw : wellFormed t) (hl : m.length = rowCount t) (hm : ∀ b ∈ m, b = true) :
    selectRows t m = t := by
  cases t with
  | mk cols =>
    unfold selectRows
    congr 1
    have : ∀ c ∈ cols, { c with values := applyMask m c.values } = c := by
      intro c hc
      have hlen : m.length = c.values.length := by
        rw [hl]; exact (hw c hc).symm
      simp [applyMask_of_all_true hlen hm]
    calc cols.map (fun c => { c with values := applyMask m c.values })
        = cols.map id := List.map_congr_left this
      _ = cols := List.map_id cols

theorem mem_distinctNonNull {vs : List (Option Val)} {x : Val} :
    x ∈ distinctNonNull vs ↔ some x ∈ vs := by
  simp [distinctNonNull, List.mem_dedup, List.mem_filterMap]

theorem forall₂_colSub_refl (l : List Column) : List.Forall₂ colSub l l := by
  induction l with
  | nil => exact List.Forall₂.nil
  | cons c cs ih => exact List.Forall₂.cons ⟨rfl, rfl, List.Sublist.refl _⟩ ih

theorem forall₂_colSub_trans {l1 l2 l3 : List Column}
    (h12 : List.Forall₂ colSub l1 l2) (h23 : List.Forall₂ colSub l2 l3) :
    List.Forall₂ colSub l1 l3 := by
  induction h12 generalizing l3 with
  | nil => cases h23; exact List.Forall₂.nil
  | cons h hs ih =>
    cases h23 with
    | cons h' hs' =>
      exact List.Forall₂.cons
        ⟨h.1.trans h'.1, h.2.1.trans h'.2.1, h.2.2.trans h'.2.2⟩ (ih hs')

theorem selectRows_colSub (t : Table) (m : List Bool) :
    List.Forall₂ colSub (selectRows t m).cols t.cols := by
  cases t with
  | mk cols =>
    induction cols with
    | nil => exact List.Forall₂.nil
    | cons c cs ih =>
      exact List.Forall₂.cons ⟨rfl, rfl, applyMask_sublist m c.values⟩ ih

theorem filterRows_colSub (t : Table) (col : String) (p : Option Val → Bool) :
    List.Forall₂ colSub (filterRows t col p).cols t.cols := by
  unfold filterRows
  cases h : colVals t col with
  | none => exact forall₂_colSub_refl _
  | some vs => exact selectRows_colSub t _

theorem catStage_colSub (t : Table) (sel : Option (String × List Val)) :
    List.Forall₂ colSub (catStage t sel).1.cols t.cols := by
  rcases sel with _ | ⟨col, selected⟩
  · exact forall₂_colSub_refl _
  · rw [catStage]
    cases h : colVals t col with
    | none => exact forall₂_colSub_refl _
    | some vs =>
      dsimp only
      by_cases h50 : (distinctNonNull vs).length ≤ 50
      · rw [if_pos h50]
        by_cases hsel : selected.isEmpty = true
        · rw [if_pos hsel]
          exact forall₂_colSub_refl _
        · rw [if_neg hsel]
          exact filterRows_colSub t col _
      · rw [if_neg h50]
        exact forall₂_colSub_refl _

theorem numStage_colSub (orig cur : Table) (sel : Option (String × ℚ × ℚ)) :
    List.Forall₂ colSub (numStage orig cur sel).1.cols cur.cols := by
  rcases sel with _ | ⟨col, lo, hi⟩
  · exact forall₂_colSub_refl _
  · rw [numStage]
    cases hm : colMin orig col with
    | none => exact forall₂_colSub_refl _
    | some m =>
      cases hM : colMax orig col with
      | none => exact forall₂_colSub_refl _
      | some M =>
        dsimp only
        by_cases heq : m = M
        · rw [if_pos heq]
          exact forall₂_colSub_refl _
        · rw [if_neg heq]
          exact filterRows_colSub cur col _

/-- C1 (counterexample): on a 1-row table, a CategoricalFilter whose `allowed`
set is supplied empty does not yield an empty View — the source skips the
filter (`if selected_values:` at app.py line 276) and all rows survive. -/
theorem c1_empty_allowed_counterexample :
    filterPipeline tblC1 (some ("a", [])) none = tblC1 ∧
    rowCount (filterPipeline tblC1 (some ("a", [])) none) = 1 := by
  constructor <;> decide

/-- C1 (amended): for every table and column, a CategoricalFilter whose
`allowed` set is supplied empty is skipped entirely; the resulting View is the
unfiltered table, not the empty one. -/
theorem c1_empty_allowed_is_noop (t : Table) (col : String) :
    filterPipeline t (some (col, [])) none = t := by
  show (catStage t (some (col, []))).1 = t
  rw [catStage]
  cases h : colVals t col with
  | none => rfl
  | some vs =>
    dsimp only
    by_cases h50 : (distinctNonNull vs).length ≤ 50
    · rw [if_pos h50]
      rfl
    · rw [if_neg h50]

/-- C3 (counterexample): on a table whose column holds `["x", Null]`, filtering
with `allowed` equal to the column's full distinct-value set `["x"]` drops the
Null row, so the View does not equal the unfiltered table. -/
theorem c3_null_rows_dropped_counterexample :
    distinctNonNull ((colVals tblC3 "a").getD []) = [Val.str "x"] ∧
    filterPipeline tblC3 (some ("a", [Val.str "x"])) none =
      ⟨[⟨"a", DType.object, [some (Val.str "x")]⟩]⟩ ∧
    filterPipeline tblC3 (some ("a", [Val.str "x"])) none ≠ tblC3 := by
  refine ⟨by decide, by decide, by decide⟩

/-- C3 (amended): for every table and column with at least one and at most 50
distinct non-null values, a CategoricalFilter whose `allowed` set equals the
column's full distinct-value set yields the View of exactly the rows whose
value in that column is non-null, in original order; when the column has no
Nulls this View equals the unfiltered table. -/
theorem c3_full_distinct_set (t : Table) (col : String) (vs : List (Option Val))
    (hw : wellFormed t) (h : colVals t col = some vs)
    (h50 : (distinctNonNull vs).length ≤ 50) (hne : distinctNonNull vs ≠ []) :
    filterPipeline t (some (col, distinctNonNull vs)) none =
      filterRows t col Option.isSome ∧
    (nullCount vs = 0 →
      filterPipeline t (some (col, distinctNonNull vs)) none = t) := by
  have hmask : maskOf (catPred (distinctNonNull vs)) vs = maskOf Option.isSome vs := by
    apply maskOf_congr
    intro v hv
    cases v with
    | none => rfl
    | some x => simp [catPred, mem_distinctNonNull.mpr hv]
  have hIsEmpty : ¬ (distinctNonNull vs).isEmpty = true := by
    cases hu : distinctNonNull vs with
    | nil => exact absurd hu hne
    | cons a l => simp [List.isEmpty]
  have hmain : filterPipeline t (some (col, distinctNonNull vs)) none =
      filterRows t col Option.isSome := by
    show (catStage t (some (col, distinctNonNull vs))).1 = filterRows t col Option.isSome
    rw [catStage, h]
    dsimp only
    rw [if_pos h50, if_neg hIsEmpty]
    rw [filterRows_of_colVals (catPred (distinctNonNull vs)) h,
      filterRows_of_colVals Option.isSome h, hmask]
  refine ⟨hmain, fun h0 => ?_⟩
  rw [hmain, filterRows_of_colVals Option.isSome h]
  have hvslen : vs.length = rowCount t := by
    rcases exists_col_of_colVals h with ⟨c0, hc0, hval⟩
    rw [← hval]
    exact hw c0 hc0
  apply selectRows_of_all_true hw
  · simpa [maskOf] using hvslen
  · intro b hb
    rcases List.mem_map.mp hb with ⟨v, hv, rfl⟩
    cases v with
    | some x => rfl
    | none =>
      have hmem : (none : Option Val) ∈ vs.filter Option.isNone :=
        List.mem_filter.mpr ⟨hv, rfl⟩
      rw [List.length_eq_zero.mp h0] at hmem
      exact absurd hmem (List.not_mem_nil _)

/-- C3 (witness of the amended claim): on a 2-row table with column values
`["x", "y"]`, filtering with the full distinct set keeps every row. -/
theorem c3_full_distinct_set_witness :
    filterPipeline ⟨[⟨"a", DType.object, [some (Val.str "x"), some (Val.str "y")]⟩]⟩
      (some ("a", distinctNonNull [some (Val.str "x"), some (Val.str "y")])) none =
      ⟨[⟨"a", DType.object, [some (Val.str "x"), some (Val.str "y")]⟩]⟩ :=
  (c3_full_distinct_set
    ⟨[⟨"a", DType.object, [some (Val.str "x"), some (Val.str "y")]⟩]⟩ "a"
    [some (Val.str "x"), some (Val.str "y")]
    (by decide) (by decide) (by decide) (by decide)).2 (by decide)

/-- C6 (counterexample): a row whose value in the filtered column is Null does
survive a CategoricalFilter whose `allowed` set is empty, because the source
skips that filter entirely (app.py line 276). -/
theorem c6_null_survives_empty_filter_counterexample :
    colVals tblC6 "a" = some [none] ∧
    filterPipeline tblC6 (some ("a", [])) none = tblC6 := by
  refine ⟨by decide, by decide⟩

/-- C6 (amended): a row whose value in the filtered column is Null never
survives a filter that is actually applied: an applied CategoricalFilter
(nonempty `allowed`, at most 50 distinct values) keeps exactly the rows whose
value is non-null and in `allowed`, and an applied NumericRangeFilter keeps a
row iff its value is a non-null number with `min <= value <= max`. -/
theorem c6_applied_filters_drop_null_rows :
    (∀ (t : Table) (col : String) (vs : List (Option Val)) (selected : List Val),
      colVals t col = some vs → (distinctNonNull vs).length ≤ 50 → selected ≠ [] →
      colVals (catStage t (some (col, selected))).1 col =
        some (vs.filter (catPred selected)) ∧
      ∀ w ∈ vs.filter (catPred selected), ∃ v, w = some v ∧ v ∈ selected) ∧
    (∀ (orig cur : Table) (col : String) (vs : List (Option Val)) (lo hi m M : ℚ),
      colVals cur col = some vs → colMin orig col = some m →
      colMax orig col = some M → m ≠ M →
      colVals (numStage orig cur (some (col, lo, hi))).1 col =
        some (vs.filter (numPred lo hi)) ∧
      ∀ w : Option Val,
        (numPred lo hi w = true ↔ ∃ q, w = some (Val.num q) ∧ lo ≤ q ∧ q ≤ hi)) := by
  constructor
  · intro t col vs selected h h50 hne
    have hIsEmpty : ¬ selected.isEmpty = true := by
      cases selected with
      | nil => exact absurd rfl hne
      | cons a l => simp [List.isEmpty]
    have hstage : (catStage t (some (col, selected))).1 =
        filterRows t col (catPred selected) := by
      rw [catStage, h]
      dsimp only
      rw [if_pos h50, if_neg hIsEmpty]
    constructor
    · rw [hstage]
      exact colVals_filterRows_self _ h
    · intro w hw'
      have hp : catPred selected w = true := (List.mem_filter.mp hw').2
      cases w with
      | none => simp [catPred] at hp
      | some v =>
        refine ⟨v, rfl, ?_⟩
        simpa [catPred] using hp
  · intro orig cur col vs lo hi m M h hm hM hne
    have hstage : (numStage orig cur (some (col, lo, hi))).1 =
        filterRows cur col (numPred lo hi) := by
      rw [numStage, hm, hM]
      dsimp only
      rw [if_neg hne]
    constructor
    · rw [hstage]
      exact colVals_filterRows_self _ h
    · intro w
      cases w with
      | none => simp [numPred]
      | some v =>
        cases v with
        | str s => simp [numPred]
        | num q => simp [numPred]
        | dt n => simp [numPred]

/-- C6 (witness of the amended claim): the Null row of a 1-row table dies
under an applied categorical filter, and only the in-range non-null value of
`[1, Null, 5]` survives the numeric range filter `[1, 2]`. -/
theorem c6_applied_filters_drop_null_rows_witness :
    colVals (catStage tblC6 (some ("a", [Val.str "x"]))).1 "a" = some [] ∧
    colVals (numStage tblC6num tblC6num (some ("n", 1, 2))).1 "n" =
      some [some (Val.num 1)] := by
  constructor
  · exact (c6_applied_filters_drop_null_rows.1 tblC6 "a" [none] [Val.str "x"]
      (by decide) (by decide) (by decide)).1
  · exact (c6_applied_filters_drop_null_rows.2 tblC6num tblC6num "n"
      [some (Val.num 1), none, some (Val.num 5)] 1 2 1 5
      (by decide) (by decide) (by decide) (by decide)).1

/-- C7: on a numeric column whose minimum equals its maximum, the numeric
filter stage constructs no filter: it leaves any current View unchanged and
emits the informational note instead, for every requested range. -/
theorem c7_constant_column_not_filtered (orig cur : Table) (col : String)
    (lo hi m : ℚ) (hmin : colMin orig col = some m) (hmax : colMax orig col = some m) :
    numStage orig cur (some (col, lo, hi)) = (cur, some (constNote col m)) := by
  rw [numStage, hmin, hmax]
  dsimp only
  rw [if_pos rfl]

/-- C7 (witness): on the spec's `[10, 10, 10]` column the stage filters
nothing and notes that all values are 10. -/
theorem c7_constant_column_not_filtered_witness :
    numStage tblC7 tblC7 (some ("n", 0, 100)) = (tblC7, some (constNote "n" 10)) ∧
    colMin tblC7 "n" = some 10 ∧ colMax tblC7 "n" = some 10 :=
  ⟨c7_constant_column_not_filtered tblC7 tblC7 "n" 0 100 10 (by decide) (by decide),
   by decide, by decide⟩

/-- C9: for every table and every filter selection, each column of the
resulting View keeps its name and dtype and its values are a subsequence of
the source column's values, all columns being cut by one shared row mask —
the View's rows are the surviving source rows in original order. -/
theorem c9_view_rows_subsequence (t : Table) (catSel : Option (String × List Val))
    (numSel : Option (String × ℚ × ℚ)) :
    List.Forall₂ colSub (filterPipeline t catSel numSel).cols t.cols :=
  forall₂_colSub_trans (numStage_colSub t (catStage t catSel).1 numSel)
    (catStage_colSub t catSel)

/-- C10: on a categorical column with more than 50 distinct non-null values
the categorical stage never filters, whatever the selection: the table passes
through unchanged and the user is pointed at other mechanisms. -/
theorem c10_over_50_distinct_not_filtered (t : Table) (col : String)
    (vs : List (Option Val)) (selected : List Val)
    (h : colVals t col = some vs) (h50 : 50 < (distinctNonNull vs).length) :
    catStage t (some (col, selected)) =
      (t, some (tooManyNote col (distinctNonNull vs).length)) := by
  rw [catStage, h]
  dsimp only
  rw [if_neg (by omega)]

/-- C10 (witness): a column with 51 distinct values passes through the
categorical stage unchanged, with the informational note. -/
theorem c10_over_50_distinct_not_filtered_witness :
    catStage tblC10 (some ("c", [Val.str "0"])) =
      (tblC10, some (tooManyNote "c" 51)) :=
  (c10_over_50_distinct_not_filtered tblC10 "c" tblC10vals [Val.str "0"]
    (by decide) (by decide)).trans (by decide)

/-- C5: on a Text column, conversion is skipped when the missing ratio
exceeds 0.5; otherwise numeric conversion is accepted exactly above the 0.9
success ratio with the `→ numeric` log entry; datetime is attempted only when
numeric fails, under the identical threshold, with the `→ datetime` entry;
with neither threshold met the column stays Text with no log entry.  The
spec's `["1","2","3","4","5"]` column converts to numeric and its
`["1","2","x","4","5"]` column (ratio 0.8) stays Text with an empty log. -/
theorem c5_conversion_thresholds :
    (∀ (rc : Nat) (c : Column), c.dtype = DType.object →
      (ratio (nullCount c.values) rc > ratio 1 2 → convertColumn rc c = (c, [])) ∧
      (¬ ratio (nullCount c.values) rc > ratio 1 2 →
        (ratio (nonNullCount (c.values.map toNumericCell)) (nonNullCount c.values) >
            ratio 9 10 →
          convertColumn rc c =
            ({ c with dtype := DType.numeric, values := c.values.map toNumericCell },
             ["'" ++ c.name ++ "' → numeric"])) ∧
        (¬ ratio (nonNullCount (c.values.map toNumericCell)) (nonNullCount c.values) >
            ratio 9 10 →
          (ratio (nonNullCount (c.values.map toDatetimeCell)) (nonNullCount c.values) >
              ratio 9 10 →
            convertColumn rc c =
              ({ c with dtype := DType.datetime, values := c.values.map toDatetimeCell },
               ["'" ++ c.name ++ "' → datetime"])) ∧
          (¬ ratio (nonNullCount (c.values.map toDatetimeCell)) (nonNullCount c.values) >
              ratio 9 10 →
            convertColumn rc c = (c, []))))) ∧
    attempt_type_conversion tblC5digits =
      (⟨[⟨"col", DType.numeric,
          [some (Val.num 1), some (Val.num 2), some (Val.num 3),
           some (Val.num 4), some (Val.num 5)]⟩]⟩, ["'col' → numeric"]) ∧
    attempt_type_conversion tblC5mixed = (tblC5mixed, []) := by
  refine ⟨?_, by decide, by decide⟩
  intro rc c hd
  have hobj : ¬ (c.dtype ≠ DType.object) := by simp [hd]
  constructor
  · intro hskip
    rw [convertColumn, if_neg hobj, if_pos hskip]
  · intro hnoskip
    constructor
    · intro hnum
      rw [convertColumn, if_neg hobj, if_neg hnoskip]
      dsimp only
      rw [if_pos hnum]
    · intro hnonum
      constructor
      · intro hdt
        rw [convertColumn, if_neg hobj, if_neg hnoskip]
        dsimp only
        rw [if_neg hnonum, if_pos hdt]
      · intro hnodt
        rw [convertColumn, if_neg hobj, if_neg hnoskip]
        dsimp only
        rw [if_neg hnonum, if_neg hnodt]

/-- C5 (witness): a Text column with 2 missing values of 3 rows (ratio above
0.5) is skipped unchanged. -/
theorem c5_conversion_thresholds_witness :
    convertColumn 3 ⟨"s", DType.object, [some (Val.str "1"), none, none]⟩ =
      (⟨"s", DType.object, [some (Val.str "1"), none, none]⟩, []) :=
  (c5_conversion_thresholds.1 3
    ⟨"s", DType.object, [some (Val.str "1"), none, none]⟩ rfl).1 (by decide)

/-- C2 (code bug): `main` stores the parsed table and uses it downstream
without ever invoking `attempt_type_conversion` (and reads the never-assigned
`st.session_state.conversion_changes` at app.py line 209): at the spec's own
scenario table the downstream table differs from the inference output, whose
change log would be `'a' → numeric`. -/
theorem c2_load_skips_type_inference :
    pipelineTable scenarioTable ≠ (attempt_type_conversion scenarioTable).1 ∧
    (attempt_type_conversion scenarioTable).2 = ["'a' → numeric"] := by
  refine ⟨by decide, by decide⟩

theorem getD_cons_eraseIdx_perm {α : Type} (l : List α) (i : Nat) (d : α)
    (h : i < l.length) : (l.getD i d :: l.eraseIdx i).Perm l := by
  induction l generalizing i with
  | nil => simp at h
  | cons x xs ih =>
    cases i with
    | zero => exact List.Perm.refl _
    | succ i =>
      have h' : i < xs.length := by simpa using h
      have e1 : (x :: xs).getD (i + 1) d :: (x :: xs).eraseIdx (i + 1)
          = xs.getD i d :: x :: xs.eraseIdx i := rfl
      rw [e1]
      exact (List.Perm.swap x (xs.getD i d) _).trans ((ih i h').cons x)

theorem sampleK_count {α : Type} [DecidableEq α] (k s : Nat) (l : List α) (a : α) :
    (sampleK k s l).count a ≤ l.count a := by
  induction k generalizing s l with
  | zero => simp [sampleK]
  | succ k ih =>
    cases l with
    | nil => simp [sampleK]
    | cons v vs =>
      have hlt : s % (v :: vs).length < (v :: vs).length := Nat.mod_lt _ (by simp)
      have hperm := getD_cons_eraseIdx_perm (v :: vs) (s % (v :: vs).length) v hlt
      calc (sampleK (k + 1) s (v :: vs)).count a
          = ((v :: vs).getD (s % (v :: vs).length) v ::
              sampleK k (lcg s) ((v :: vs).eraseIdx (s % (v :: vs).length))).count a := rfl
        _ ≤ ((v :: vs).getD (s % (v :: vs).length) v ::
              (v :: vs).eraseIdx (s % (v :: vs).length)).count a := by
            simp only [List.count_cons]
            exact Nat.add_le_add_right (ih _ _) _
        _ = (v :: vs).count a := hperm.count_eq a

theorem sampleK_length {α : Type} (k s : Nat) (l : List α) :
    (sampleK k s l).length = min k l.length := by
  induction k generalizing s l with
  | zero => simp [sampleK]
  | succ k ih =>
    cases l with
    | nil => simp [sampleK]
    | cons v vs =>
      have hlt : s % (v :: vs).length < (v :: vs).length := Nat.mod_lt _ (by simp)
      have herase := List.length_eraseIdx_add_one hlt
      calc (sampleK (k + 1) s (v :: vs)).length
          = (sampleK k (lcg s) ((v :: vs).eraseIdx (s % (v :: vs).length))).length + 1 := rfl
        _ = min k ((v :: vs).eraseIdx (s % (v :: vs).length)).length + 1 := by rw [ih]
        _ = min (k + 1) (v :: vs).length := by
            simp only [List.length_cons] at herase ⊢
            omega

theorem sampleK_nodup {α : Type} [DecidableEq α] (k s : Nat) {l : List α}
    (h : l.Nodup) : (sampleK k s l).Nodup := by
  rw [List.nodup_iff_count_le_one] at h ⊢
  intro a
  exact (sampleK_count k s l a).trans (h a)

theorem mem_of_mem_sampleK {α : Type} [DecidableEq α] {k s : Nat} {l : List α}
    {a : α} (h : a ∈ sampleK k s l) : a ∈ l := by
  have h1 : 0 < (sampleK k s l).count a := List.count_pos_iff.mpr h
  exact List.count_pos_iff.mp (h1.trans_le (sampleK_count k s l a))

/-- C8: a View of at most 5000 rows passes through sampling unchanged; a
larger View is cut to exactly 5000 rows, drawn without replacement (the drawn
row indices are distinct, valid positions of the View), by a fixed-seed
deterministic procedure — `sampleTable` is a pure function of the View alone,
so sampling the identical View twice yields the identical row set. -/
theorem c8_sampling_cap (t : Table) :
    (rowCount t ≤ 5000 → sampleTable t = t) ∧
    (5000 < rowCount t →
      rowCount (sampleTable t) = 5000 ∧
      (sampleIdx (rowCount t)).length = 5000 ∧
      (sampleIdx (rowCount t)).Nodup ∧
      ∀ i ∈ sampleIdx (rowCount t), i < rowCount t) := by
  constructor
  · intro hle
    rw [sampleTable, if_neg (by omega)]
  · intro hgt
    have hlen : (sampleIdx (rowCount t)).length = 5000 := by
      rw [sampleIdx, sampleK_length, List.length_range]
      omega
    refine ⟨?_, hlen, sampleK_nodup _ _ (List.nodup_range _),
      fun i hi => List.mem_range.mp (mem_of_mem_sampleK hi)⟩
    rw [sampleTable, if_pos hgt]
    cases ht : t.cols with
    | nil =>
      rw [rowCount, ht] at hgt
      simp at hgt
    | cons c cs =>
      show ((sampleIdx (rowCount t)).map (fun i => c.values.getD i none)).length = 5000
      rw [List.length_map]
      exact hlen

/-- C8 (witness): a 3-row table is far below the cap and passes through
sampling unchanged. -/
theorem c8_sampling_cap_witness : sampleTable tblC6num = tblC6num :=
  (c8_sampling_cap tblC6num).1 (by decide)

end CSVDash
